import Mathlib

/-!
Verification of the sales ETL pipeline (src/main.py).

The pipeline's datasets are modelled as Lean lists of structures with
`Option` fields: a missing value (pandas `NaN`/`NaT`/`None`) is `none`.
Dates are modelled as `Option Int` (a calendar-day number), numeric
columns as `Option ℚ`.  Pandas comparison semantics are kept: comparing
a missing value with `>` or `<=` yields `False`, which is why the masks
below pattern-match on the `Option`.
-/

/-- One transaction row, as it exists after `tipificar_campos`:
`fecha` is a parsed date (or null), `cantidad` and `precio_unitario`
parsed numbers (or null), the text columns nullable strings. -/
structure Row where
  fecha : Option Int
  producto : Option String
  vendedor : Option String
  sucursal : Option String
  cantidad : Option ℚ
  precio_unitario : Option ℚ
deriving DecidableEq

/-- Mask `df["fecha"] > hoy` of `validar_reglas_negocio`: a null `fecha`
compares as `False` in pandas, so only a present date strictly after
`hoy` sets the mask. -/
def mask_futuras (hoy : Int) (r : Row) : Bool :=
  match r.fecha with
  | none => false
  | some d => decide (hoy < d)

/-- Mask `(df["precio_unitario"] <= 0) | (df["precio_unitario"].isna())`. -/
def mask_precio_invalido (r : Row) : Bool :=
  match r.precio_unitario with
  | none => true
  | some p => decide (p ≤ 0)

/-- Mask `(df["cantidad"] <= 0) | (df["cantidad"].isna())`. -/
def mask_cantidad_invalida (r : Row) : Bool :=
  match r.cantidad with
  | none => true
  | some c => decide (c ≤ 0)

/-- Mask `df["fecha"].isna()`. -/
def mask_fecha_invalida (r : Row) : Bool :=
  r.fecha.isNone

/-- The combined rejection predicate of `validar_reglas_negocio`:
the four masks joined by `|`. -/
def rechazoRow (hoy : Int) (r : Row) : Bool :=
  mask_futuras hoy r || mask_precio_invalido r ||
    mask_cantidad_invalida r || mask_fecha_invalida r

/-- `rechazados = df[mask_futuras | mask_precio_invalido | mask_cantidad_invalida
| mask_fecha_invalida]`: the rows selected by the combined mask, in input order. -/
def rechazadosOf (hoy : Int) (df : List Row) : List Row :=
  df.filter (fun r => rechazoRow hoy r)

/-- `validar_reglas_negocio` seen as a pure partition:
`df_valido = df.drop(rechazados.index)` is the complement of the mask,
and the second component is the rejected set diverted to the sink. -/
def validar_reglas_negocio (hoy : Int) (df : List Row) : List Row × List Row :=
  (df.filter (fun r => ! rechazoRow hoy r), rechazadosOf hoy df)

/-- The rejects-sink state: `none` when `data/processed/rechazados.csv`
does not exist, `some rows` when it exists with those data rows. -/
def Sink : Type := Option (List Row)

/-- `validar_reglas_negocio` together with its file effect: when the
rejected set is nonempty the rows are appended to the sink (creating it
when absent: `modo = "a" if os.path.exists(...) else "w"`); when it is
empty the `if not rechazados.empty` guard skips the write entirely. -/
def validarConSink (hoy : Int) (df : List Row) (sink : Option (List Row)) :
    List Row × Option (List Row) :=
  let rech := rechazadosOf hoy df
  let valido := df.filter (fun r => ! rechazoRow hoy r)
  if rech.isEmpty then (valido, sink)
  else (valido, some (sink.getD [] ++ rech))

/-- The spec's wording of the four business rules, as a proposition on a
row (to be compared with the code's `rechazoRow`): `fecha` strictly after
today, `precio_unitario` ≤ 0 or null, `cantidad` ≤ 0 or null, `fecha` null. -/
def SpecRejects (hoy : Int) (r : Row) : Prop :=
  (∃ d, r.fecha = some d ∧ hoy < d) ∨
  (r.precio_unitario = none ∨ ∃ p, r.precio_unitario = some p ∧ p ≤ 0) ∨
  (r.cantidad = none ∨ ∃ c, r.cantidad = some c ∧ c ≤ 0) ∨
  r.fecha = none

/-- Splitting a list by a predicate preserves the total length. -/
theorem length_filter_split {α : Type} (p : α → Bool) (l : List α) :
    (l.filter p).length + (l.filter (fun a => ! p a)).length = l.length := by
  induction l with
  | nil => rfl
  | cons a l ih =>
    by_cases h : p a = true <;> simp [List.filter_cons, h] <;> omega

/-- C1: for every run date and dataset, the valid rows and the rejected
rows of `validar_reglas_negocio` form a disjoint partition of the input:
their lengths sum to the input length, every input row lands in at least
one of the two sets, and no row lands in both. -/
theorem validar_partition (hoy : Int) (df : List Row) :
    (validar_reglas_negocio hoy df).1.length
        + (validar_reglas_negocio hoy df).2.length = df.length ∧
    (∀ r ∈ df, r ∈ (validar_reglas_negocio hoy df).1 ∨
        r ∈ (validar_reglas_negocio hoy df).2) ∧
    (∀ r : Row, ¬ (r ∈ (validar_reglas_negocio hoy df).1 ∧
        r ∈ (validar_reglas_negocio hoy df).2)) := by
  refine ⟨?_, ?_, ?_⟩
  · have h := length_filter_split (fun r => rechazoRow hoy r) df
    simp only [validar_reglas_negocio, rechazadosOf]
    omega
  · intro r hr
    by_cases h : rechazoRow hoy r = true
    · exact Or.inr (List.mem_filter.mpr ⟨hr, h⟩)
    · exact Or.inl (List.mem_filter.mpr ⟨hr, by simp [h]⟩)
  · rintro r ⟨h1, h2⟩
    have hv := (List.mem_filter.mp h1).2
    have hrj := (List.mem_filter.mp h2).2
    simp only [Bool.not_eq_eq_eq_not, Bool.not_true] at hv
    rw [hrj] at hv
    simp at hv

/-- C1 witness: the partition law at a concrete two-row dataset. -/
theorem validar_partition_witness :
    let r1 : Row := ⟨some 10, some "Pan", some "Ana", some "Centro", some 2, some 10⟩
    let r2 : Row := ⟨some 10, some "Leche", some "Ana", some "Centro", some (-1), some 5⟩
    (validar_reglas_negocio 10 [r1, r2]).1.length
        + (validar_reglas_negocio 10 [r1, r2]).2.length = 2 ∧
    r1 ∈ (validar_reglas_negocio 10 [r1, r2]).1 ∨
        r1 ∈ (validar_reglas_negocio 10 [r1, r2]).2 := by
  intro r1 r2
  exact Or.inl ⟨(validar_partition 10 [r1, r2]).1,
    ((validar_partition 10 [r1, r2]).2.1 r1 (by simp)).resolve_right (by decide)⟩

/-- The code's combined mask agrees with the spec's four business rules
on every row. -/
theorem rechazoRow_iff_specRejects (hoy : Int) (r : Row) :
    rechazoRow hoy r = true ↔ SpecRejects hoy r := by
  unfold rechazoRow SpecRejects mask_futuras mask_precio_invalido
    mask_cantidad_invalida mask_fecha_invalida
  rcases hf : r.fecha with _ | d <;>
    rcases hp : r.precio_unitario with _ | p <;>
    rcases hc : r.cantidad with _ | c <;>
    simp [Option.isNone, or_assoc]

/-- C2: `validar_reglas_negocio` rejects a row exactly when one of the
four business rules (spec wording) holds for it; the valid dataset is a
sublist of the input (relative order preserved), contains no rejectable
row, and contains every input occurrence of a non-rejectable row. -/
theorem validar_classification (hoy : Int) (df : List Row) :
    (∀ r : Row, rechazoRow hoy r = true ↔ SpecRejects hoy r) ∧
    (∀ r ∈ df, (r ∈ (validar_reglas_negocio hoy df).2 ↔ SpecRejects hoy r)) ∧
    List.Sublist (validar_reglas_negocio hoy df).1 df ∧
    (∀ r ∈ (validar_reglas_negocio hoy df).1, ¬ SpecRejects hoy r) ∧
    (∀ r ∈ df, ¬ SpecRejects hoy r → r ∈ (validar_reglas_negocio hoy df).1) := by
  refine ⟨rechazoRow_iff_specRejects hoy, ?_, ?_, ?_, ?_⟩
  · intro r hr
    constructor
    · intro hmem
      exact (rechazoRow_iff_specRejects hoy r).mp (List.mem_filter.mp hmem).2
    · intro hs
      exact List.mem_filter.mpr ⟨hr, (rechazoRow_iff_specRejects hoy r).mpr hs⟩
  · exact List.filter_sublist df
  · intro r hmem hs
    have h := (List.mem_filter.mp hmem).2
    have h2 := (rechazoRow_iff_specRejects hoy r).mpr hs
    simp [h2] at h
  · intro r hr hs
    rw [(rechazoRow_iff_specRejects hoy r).symm.not] at hs
    exact List.mem_filter.mpr ⟨hr, by simpa using hs⟩

/-- C2 witness: the classification at a concrete dataset — a row with
`cantidad = -1` is rejected, and a fully valid row dated today stays. -/
theorem validar_classification_witness :
    let good : Row := ⟨some 10, some "Pan", some "Ana", some "Centro", some 2, some 10⟩
    let bad : Row := ⟨some 10, some "Leche", some "Ana", some "Centro", some (-1), some 5⟩
    good ∈ (validar_reglas_negocio 10 [good, bad]).1 ∧
      (bad ∈ (validar_reglas_negocio 10 [good, bad]).2 ↔ SpecRejects 10 bad) := by
  intro good bad
  refine ⟨(validar_classification 10 [good, bad]).2.2.2.2 good (by simp) ?_,
    (validar_classification 10 [good, bad]).2.1 bad (by simp)⟩
  rw [← rechazoRow_iff_specRejects]
  decide

/-- C9: when no row of the input violates any business rule,
`validar_reglas_negocio` leaves the sink state exactly as it was —
in particular a nonexistent `rechazados.csv` is not created — and the
returned valid dataset is the input itself. -/
theorem validar_frame (hoy : Int) (df : List Row) (sink : Option (List Row))
    (h : ∀ r ∈ df, rechazoRow hoy r = false) :
    validarConSink hoy df sink = (df, sink) := by
  have hrech : rechazadosOf hoy df = [] := by
    rw [rechazadosOf, List.filter_eq_nil_iff]
    intro r hr
    simp [h r hr]
  have hval : df.filter (fun r => ! rechazoRow hoy r) = df := by
    rw [List.filter_eq_self]
    intro r hr
    simp [h r hr]
  simp [validarConSink, hrech, hval]

/-- C9 witness: a clean one-row dataset against an absent sink — the
sink stays absent and the row survives. -/
theorem validar_frame_witness :
    let good : Row := ⟨some 10, some "Pan", some "Ana", some "Centro", some 2, some 10⟩
    validarConSink 10 [good] none = ([good], none) :=
  validar_frame 10 _ none (by decide)

/-- C10: each input row reaches the rejects sink at most once per run:
the appended segment is exactly `rechazadosOf`, a single filter by the
disjunction of the four rules, so a row violating several rules at once
is not duplicated; on a duplicate-free input every row occurs at most
once in the appended segment, and in general a row never occurs more
often among the rejects than in the input. -/
theorem validar_no_duplicate_rejects (hoy : Int) (df : List Row)
    (sink : Option (List Row)) (r : Row) (h : df.Nodup) :
    (rechazadosOf hoy df).count r ≤ 1 ∧
    (rechazadosOf hoy df).count r ≤ df.count r ∧
    (rechazadosOf hoy df ≠ [] →
      (validarConSink hoy df sink).2 = some (sink.getD [] ++ rechazadosOf hoy df)) := by
  refine ⟨?_, ?_, ?_⟩
  · exact List.nodup_iff_count_le_one.mp (List.Nodup.filter _ h) r
  · exact List.Sublist.count_le (List.filter_sublist df) r
  · intro hne
    rw [validarConSink]
    simp [List.isEmpty_iff, hne]

/-- C10 witness: a row violating all four rules at once (it has a null
`fecha`, a negative price and a zero quantity) lands in the rejects
exactly once, not once per rule. -/
theorem validar_no_duplicate_rejects_witness :
    let awful : Row := ⟨none, some "Pan", some "Ana", some "Centro", some 0, some (-3)⟩
    (rechazadosOf 10 [awful]).count awful ≤ 1 ∧
      (rechazadosOf 10 [awful]).count awful = 1 :=
  ⟨(validar_no_duplicate_rejects 10 _ none _ (by decide)).1, by decide⟩

/-- Worker for `drop_duplicates`: `seen` is the set of row values
already emitted; a row equal to an earlier one is skipped. -/
def drop_duplicates_aux {α : Type} [DecidableEq α] (seen : List α) : List α → List α
  | [] => []
  | a :: l =>
    if a ∈ seen then drop_duplicates_aux seen l
    else a :: drop_duplicates_aux (a :: seen) l

/-- Pandas `df.drop_duplicates()`: remove every row that is an exact
duplicate (all columns) of an earlier row, keeping the first occurrence. -/
def drop_duplicates {α : Type} [DecidableEq α] (l : List α) : List α :=
  drop_duplicates_aux [] l

theorem mem_drop_duplicates_aux {α : Type} [DecidableEq α] (l : List α) :
    ∀ (seen : List α) (x : α),
      x ∈ drop_duplicates_aux seen l ↔ x ∈ l ∧ x ∉ seen := by
  induction l with
  | nil => simp [drop_duplicates_aux]
  | cons a l ih =>
    intro seen x
    rw [drop_duplicates_aux]
    by_cases ha : a ∈ seen
    · rw [if_pos ha, ih]
      constructor
      · rintro ⟨hx, hs⟩
        exact ⟨List.mem_cons_of_mem a hx, hs⟩
      · rintro ⟨hx, hs⟩
        rcases List.mem_cons.mp hx with hxa | hxl
        · exact absurd (hxa ▸ ha) hs
        · exact ⟨hxl, hs⟩
    · rw [if_neg ha]
      by_cases hxa : x = a
      · subst hxa
        simp [ha]
      · simp only [List.mem_cons, ih]
        tauto

/-- A row appears in `drop_duplicates l` exactly when it appears in `l`. -/
theorem mem_drop_duplicates {α : Type} [DecidableEq α] (l : List α) (x : α) :
    x ∈ drop_duplicates l ↔ x ∈ l := by
  rw [drop_duplicates, mem_drop_duplicates_aux]
  simp

theorem nodup_drop_duplicates_aux {α : Type} [DecidableEq α] (l : List α) :
    ∀ seen : List α, (drop_duplicates_aux seen l).Nodup := by
  induction l with
  | nil => intro seen; simp [drop_duplicates_aux]
  | cons a l ih =>
    intro seen
    rw [drop_duplicates_aux]
    by_cases ha : a ∈ seen
    · rw [if_pos ha]; exact ih seen
    · rw [if_neg ha]
      refine List.nodup_cons.mpr ⟨?_, ih (a :: seen)⟩
      rw [mem_drop_duplicates_aux]
      simp

/-- `drop_duplicates` leaves no two identical rows behind. -/
theorem nodup_drop_duplicates {α : Type} [DecidableEq α] (l : List α) :
    (drop_duplicates l).Nodup :=
  nodup_drop_duplicates_aux l []

theorem drop_duplicates_aux_eq_self {α : Type} [DecidableEq α] (l : List α) :
    ∀ seen : List α, l.Nodup → (∀ x ∈ l, x ∉ seen) →
      drop_duplicates_aux seen l = l := by
  induction l with
  | nil => intro seen _ _; rfl
  | cons a l ih =>
    intro seen hnd hdisj
    rw [drop_duplicates_aux, if_neg (hdisj a (List.mem_cons_self a l))]
    rw [ih (a :: seen) (List.nodup_cons.mp hnd).2]
    intro x hx
    rw [List.mem_cons]
    rintro (hxa | hxs)
    · exact (List.nodup_cons.mp hnd).1 (hxa ▸ hx)
    · exact hdisj x (List.mem_cons_of_mem a hx) hxs

/-- On a duplicate-free list `drop_duplicates` removes nothing. -/
theorem drop_duplicates_eq_self {α : Type} [DecidableEq α] {l : List α}
    (h : l.Nodup) : drop_duplicates l = l :=
  drop_duplicates_aux_eq_self l [] h (by simp)

/-- The critical-field null test of `limpiar_duplicados_y_nulos`:
`criticos = ["fecha", "producto", "cantidad", "precio_unitario"]`. -/
def hasNullCritico (r : Row) : Bool :=
  r.fecha.isNone || r.producto.isNone || r.cantidad.isNone || r.precio_unitario.isNone

/-- `limpiar_duplicados_y_nulos`: `df.drop_duplicates()` followed by
`df.dropna(subset=criticos)`. -/
def limpiar_duplicados_y_nulos (df : List Row) : List Row :=
  (drop_duplicates df).filter (fun r => ! hasNullCritico r)

/-- C7: `limpiar_duplicados_y_nulos` is idempotent — a second
application returns its input unchanged — because one application
already leaves no duplicate rows and no row with a null critical field. -/
theorem limpiar_idempotent (df : List Row) :
    limpiar_duplicados_y_nulos (limpiar_duplicados_y_nulos df) =
        limpiar_duplicados_y_nulos df ∧
    (limpiar_duplicados_y_nulos df).Nodup ∧
    (∀ r ∈ limpiar_duplicados_y_nulos df, hasNullCritico r = false) := by
  have hnd : (limpiar_duplicados_y_nulos df).Nodup :=
    List.Nodup.filter _ (nodup_drop_duplicates df)
  refine ⟨?_, hnd, ?_⟩
  · rw [limpiar_duplicados_y_nulos, drop_duplicates_eq_self hnd,
      limpiar_duplicados_y_nulos, List.filter_filter]
    apply List.filter_congr
    intro r _
    simp
  · intro r hr
    have := (List.mem_filter.mp hr).2
    simpa using this

/-- C7 witness: one application on a dataset with an exact duplicate and
a null-critical row yields a clean single row; the second application is
the identity on it. -/
theorem limpiar_idempotent_witness :
    let r1 : Row := ⟨some 10, some "Pan", some "Ana", some "Centro", some 2, some 10⟩
    let r3 : Row := ⟨some 10, none, some "Ana", some "Centro", some 1, some 5⟩
    limpiar_duplicados_y_nulos (limpiar_duplicados_y_nulos [r1, r1, r3]) =
        limpiar_duplicados_y_nulos [r1, r1, r3] ∧
      limpiar_duplicados_y_nulos [r1, r1, r3] = [r1] := by
  intro r1 r3
  exact ⟨(limpiar_idempotent [r1, r1, r3]).1, by decide⟩

/-- A row after `crear_monto_total`: the previous columns plus
`monto_total = cantidad * precio_unitario` (null when either factor is
null, as NaN propagates through pandas multiplication). -/
structure VRow where
  fecha : Option Int
  producto : Option String
  vendedor : Option String
  sucursal : Option String
  cantidad : Option ℚ
  precio_unitario : Option ℚ
  monto_total : Option ℚ
deriving DecidableEq

/-- `crear_monto_total` on one row: `df["monto_total"] = df["cantidad"] *
df["precio_unitario"]`. -/
def crear_monto_total (r : Row) : VRow :=
  { fecha := r.fecha, producto := r.producto, vendedor := r.vendedor,
    sucursal := r.sucursal, cantidad := r.cantidad,
    precio_unitario := r.precio_unitario,
    monto_total :=
      match r.cantidad, r.precio_unitario with
      | some c, some p => some (c * p)
      | _, _ => none }

/-- Sum of `f` over a list; the building block for the pandas
aggregations below. -/
def sumBy {α : Type} (f : α → ℚ) : List α → ℚ
  | [] => 0
  | a :: l => f a + sumBy f l

/-- The contribution of one row to a `monto_total` sum: pandas `sum`
skips NaN, so a null `monto_total` contributes 0. -/
def montoOf (r : VRow) : ℚ :=
  r.monto_total.getD 0

theorem sumBy_congr {α : Type} (f g : α → ℚ) (l : List α)
    (h : ∀ a ∈ l, f a = g a) : sumBy f l = sumBy g l := by
  induction l with
  | nil => rfl
  | cons a l ih =>
    rw [sumBy, sumBy, h a (List.mem_cons_self a l),
      ih (fun b hb => h b (List.mem_cons_of_mem a hb))]

theorem sumBy_map {α β : Type} (f : β → ℚ) (g : α → β) (l : List α) :
    sumBy f (l.map g) = sumBy (fun a => f (g a)) l := by
  induction l with
  | nil => rfl
  | cons a l ih => rw [List.map_cons, sumBy, sumBy, ih]

/-- Splitting a sum along a predicate. -/
theorem sumBy_filter_split {α : Type} (f : α → ℚ) (p : α → Bool) (l : List α) :
    sumBy f (l.filter p) + sumBy f (l.filter (fun a => ! p a)) = sumBy f l := by
  induction l with
  | nil => simp [sumBy]
  | cons a l ih =>
    by_cases h : p a = true <;>
      simp [List.filter_cons, h, sumBy] <;> linarith

/-- Grouping loses nothing: when `keys` lists each group key once and
covers every element, the sum of the per-group sums is the total sum. -/
theorem sumBy_partition {α K : Type} [DecidableEq K] (f : α → ℚ) (k : α → K) :
    ∀ (keys : List K) (l : List α), keys.Nodup → (∀ a ∈ l, k a ∈ keys) →
      sumBy (fun key => sumBy f (l.filter (fun a => decide (k a = key)))) keys =
        sumBy f l := by
  intro keys
  induction keys with
  | nil =>
    intro l _ hcov
    have : l = [] := List.eq_nil_iff_forall_not_mem.mpr
      (fun a ha => by simpa using hcov a ha)
    rw [this]; rfl
  | cons key rest ih =>
    intro l hnd hcov
    rw [sumBy]
    have hrest : sumBy (fun key2 => sumBy f (l.filter (fun a => decide (k a = key2)))) rest =
        sumBy (fun key2 =>
          sumBy f ((l.filter (fun a => ! decide (k a = key))).filter
            (fun a => decide (k a = key2)))) rest := by
      apply sumBy_congr
      intro key2 hkey2
      have hne : key2 ≠ key := by
        rintro rfl
        exact (List.nodup_cons.mp hnd).1 hkey2
      rw [List.filter_filter]
      apply congrArg
      apply List.filter_congr
      intro a _
      by_cases hk : k a = key2
      · simp [hk, hne]
      · simp [hk]
    rw [hrest, ih (l.filter (fun a => ! decide (k a = key)))
      (List.nodup_cons.mp hnd).2 ?_]
    · exact sumBy_filter_split f (fun a => decide (k a = key)) l
    · intro a ha
      have hmem := List.mem_filter.mp ha
      have hkey := hcov a hmem.1
      rcases List.mem_cons.mp hkey with h | h
      · exfalso
        have := hmem.2
        simp [h] at this
      · exact h

/-- A pandas float value: finite, one of the infinities, or NaN. -/
inductive FloatVal
  | num : ℚ → FloatVal
  | posinf : FloatVal
  | neginf : FloatVal
  | nan : FloatVal
deriving DecidableEq

/-- Pandas float division: a nonzero numerator over zero gives a signed
infinity, `0 / 0` gives NaN, otherwise the exact quotient. -/
def floatDiv (x y : ℚ) : FloatVal :=
  if y = 0 then
    if 0 < x then FloatVal.posinf
    else if x < 0 then FloatVal.neginf
    else FloatVal.nan
  else FloatVal.num (x / y)

/-- `.replace([np.inf, -np.inf], np.nan)` applied to one value. -/
def replaceInfNan : FloatVal → FloatVal
  | FloatVal.posinf => FloatVal.nan
  | FloatVal.neginf => FloatVal.nan
  | v => v

/-- Reading a pandas float back as a nullable rational: NaN is null. -/
def floatToOption : FloatVal → Option ℚ
  | FloatVal.num q => some q
  | _ => none

/-- The `ticket_promedio` column: `(ventas_totales / tickets)` followed
by the inf-to-NaN replacement. -/
def ticketPromedio (ventas : ℚ) (tickets : Nat) : Option ℚ :=
  floatToOption (replaceInfNan (floatDiv ventas (tickets : ℚ)))

/-- One output row of `resumen_diario_por_sucursal`. -/
structure SummaryRow where
  fecha : Option Int
  sucursal : Option String
  ventas_totales : ℚ
  unidades : ℚ
  tickets : Nat
  ticket_promedio : Option ℚ
deriving DecidableEq

/-- The `groupby(["fecha", "sucursal"], dropna=False)` key of a row:
null keys form groups of their own. -/
def grupoKey (r : VRow) : Option Int × Option String :=
  (r.fecha, r.sucursal)

/-- `resumen_diario_por_sucursal`: group the dataset by
(`fecha`, `sucursal`) keeping null keys, and per group take
`ventas_totales = sum(monto_total)`, `unidades = sum(cantidad)`,
`tickets = count(producto)` (pandas `count` counts non-null values),
and `ticket_promedio` as above. -/
def resumen_diario_por_sucursal (df : List VRow) : List SummaryRow :=
  ((df.map grupoKey).dedup).map (fun key =>
    let g := df.filter (fun r => decide (grupoKey r = key))
    let ventas := sumBy montoOf g
    let tickets := (g.filter (fun r => r.producto.isSome)).length
    { fecha := key.1, sucursal := key.2,
      ventas_totales := ventas,
      unidades := sumBy (fun r => r.cantidad.getD 0) g,
      tickets := tickets,
      ticket_promedio := ticketPromedio ventas tickets })

/-- `ticketPromedio` evaluated: null exactly at a zero denominator,
the exact quotient otherwise. -/
theorem ticketPromedio_eq (v : ℚ) (t : Nat) :
    ticketPromedio v t = if t = 0 then none else some (v / (t : ℚ)) := by
  by_cases ht : t = 0
  · subst ht
    rw [ticketPromedio, floatDiv]
    rcases lt_trichotomy (0 : ℚ) v with h | h | h
    · simp [h, replaceInfNan, floatToOption]
    · simp [← h, replaceInfNan, floatToOption]
    · simp [h, not_lt_of_gt h, replaceInfNan, floatToOption]
  · have htq : (t : ℚ) ≠ 0 := Nat.cast_ne_zero.mpr ht
    rw [ticketPromedio, floatDiv, if_neg htq]
    simp [replaceInfNan, floatToOption, ht]

/-- C5: in every row of the daily summary, `ticket_promedio` is
`ventas_totales / tickets`, except that a zero `tickets` yields null;
and the division stage never leaves an infinite value (both infinities
are replaced before the column is stored). -/
theorem resumen_ticket_promedio (df : List VRow) (s : SummaryRow)
    (h : s ∈ resumen_diario_por_sucursal df) :
    (s.tickets = 0 → s.ticket_promedio = none) ∧
    (s.tickets ≠ 0 → s.ticket_promedio = some (s.ventas_totales / (s.tickets : ℚ))) ∧
    (∀ v : ℚ, ∀ t : Nat, replaceInfNan (floatDiv v (t : ℚ)) ≠ FloatVal.posinf ∧
      replaceInfNan (floatDiv v (t : ℚ)) ≠ FloatVal.neginf) := by
  rcases List.mem_map.mp h with ⟨key, _, hs⟩
  refine ⟨?_, ?_, ?_⟩
  · intro ht
    rw [← hs] at ht ⊢
    simp only at ht ⊢
    rw [ticketPromedio_eq, if_pos ht]
  · intro ht
    rw [← hs] at ht ⊢
    simp only at ht ⊢
    rw [ticketPromedio_eq, if_neg ht]
  · intro v t
    rw [floatDiv]
    by_cases hy : (t : ℚ) = 0
    · rw [if_pos hy]
      rcases lt_trichotomy (0 : ℚ) v with hv | hv | hv
      · simp [hv, replaceInfNan]
      · simp [← hv, replaceInfNan]
      · simp [hv, not_lt_of_gt hv, replaceInfNan]
    · rw [if_neg hy]
      simp [replaceInfNan]

/-- Concrete one-row dataset for the aggregator witnesses. -/
def vEjemplo : VRow :=
  ⟨some 10, some "Pan", some "Ana", some "Centro", some 2, some 10, some 20⟩

/-- The daily-summary row of `[vEjemplo]`. -/
def sEjemplo : SummaryRow :=
  ⟨some 10, some "Centro", 20, 2, 1, some 20⟩

theorem resumen_ejemplo : resumen_diario_por_sucursal [vEjemplo] = [sEjemplo] := by
  rw [resumen_diario_por_sucursal]
  simp only [vEjemplo, sEjemplo, grupoKey, List.map, List.dedup_nil,
    List.dedup_cons_of_not_mem (List.not_mem_nil _), List.filter, sumBy, montoOf]
  norm_num [ticketPromedio_eq]

/-- C5 witness: the summary of a one-row dataset has one ticket and an
average equal to its total. -/
theorem resumen_ticket_promedio_witness :
    sEjemplo ∈ resumen_diario_por_sucursal [vEjemplo] ∧
      sEjemplo.tickets ≠ 0 ∧
      sEjemplo.ticket_promedio =
        some (sEjemplo.ventas_totales / ((sEjemplo.tickets : Nat) : ℚ)) := by
  have hmem : sEjemplo ∈ resumen_diario_por_sucursal [vEjemplo] := by
    rw [resumen_ejemplo]
    exact List.mem_singleton.mpr rfl
  have h2 := (resumen_ticket_promedio [vEjemplo] sEjemplo hmem).2.1 (by decide)
  exact ⟨hmem, by decide, h2⟩

/-- C6: the daily summary conserves revenue — the `ventas_totales`
column of `resumen_diario_por_sucursal` sums to the `monto_total` sum of
the whole dataset, null `sucursal` groups included. -/
theorem resumen_conserva_ventas (df : List VRow) :
    sumBy (fun s => s.ventas_totales) (resumen_diario_por_sucursal df) =
      sumBy montoOf df := by
  rw [resumen_diario_por_sucursal, sumBy_map]
  exact sumBy_partition montoOf grupoKey ((df.map grupoKey).dedup) df
    (List.nodup_dedup (df.map grupoKey))
    (fun a ha => List.mem_dedup.mpr (List.mem_map_of_mem grupoKey ha))

/-- Ascending comparison on ranking entries: `sort_values()` of
`top_vendedores` orders by the summed amount, smallest first. -/
def amountAsc (a b : String × ℚ) : Prop := a.2 ≤ b.2

/-- Descending comparison on ranking entries: `sort_values(ascending=False)`
of `top_productos`. -/
def amountDesc (a b : String × ℚ) : Prop := b.2 ≤ a.2

instance : DecidableRel amountAsc :=
  fun a b => inferInstanceAs (Decidable (a.2 ≤ b.2))

instance : DecidableRel amountDesc :=
  fun a b => inferInstanceAs (Decidable (b.2 ≤ a.2))

instance : IsTotal (String × ℚ) amountAsc :=
  ⟨fun a b => le_total a.2 b.2⟩

instance : IsTrans (String × ℚ) amountAsc :=
  ⟨fun _ _ _ h1 h2 => le_trans h1 h2⟩

instance : IsTotal (String × ℚ) amountDesc :=
  ⟨fun a b => le_total b.2 a.2⟩

instance : IsTrans (String × ℚ) amountDesc :=
  ⟨fun _ _ _ h1 h2 => le_trans h2 h1⟩

/-- `top_productos`: `df.groupby("producto")["monto_total"].sum()` (a
null `producto` key is dropped by groupby), sorted descending by the
sum, first `n` taken. -/
def top_productos (df : List VRow) (n : Nat) : List (String × ℚ) :=
  let claves := (df.filterMap (fun r => r.producto)).dedup
  let tabla := claves.map (fun k =>
    (k, sumBy montoOf (df.filter (fun r => decide (r.producto = some k)))))
  (List.insertionSort amountDesc tabla).take n

/-- The fillna key of `top_vendedores`:
`df2["vendedor"].fillna("Sin Vendedor")` on one row. -/
def vendedorKey (r : VRow) : String :=
  r.vendedor.getD "Sin Vendedor"

/-- `top_vendedores`: fill null sellers with the sentinel, group by
seller, sum `monto_total`, `sort_values()` (ascending), take the head. -/
def top_vendedores (df : List VRow) (n : Nat) : List (String × ℚ) :=
  let claves := (df.map vendedorKey).dedup
  let tabla := claves.map (fun k =>
    (k, sumBy montoOf (df.filter (fun r => decide (vendedorKey r = k)))))
  (List.insertionSort amountAsc tabla).take n

/-- In a sorted list every element of a `take`-prefix is related to
every element of the matching `drop`-suffix. -/
theorem sorted_take_drop {α : Type} {r : α → α → Prop} {l : List α} (n : Nat)
    (h : l.Pairwise r) : ∀ p ∈ l.take n, ∀ q ∈ l.drop n, r p q := by
  have hsplit := List.take_append_drop n l
  rw [← hsplit] at h
  exact (List.pairwise_append.mp h).2.2

/-- Head of a sorted permutation: the first `n` entries of
`insertionSort` are sorted, number `min n` of the table size, come from
the table, and precede (under `r`) every table entry left out. -/
theorem take_insertionSort_spec {α : Type} (r : α → α → Prop) [DecidableRel r]
    [IsTotal α r] [IsTrans α r] (tabla : List α) (n : Nat) :
    ((List.insertionSort r tabla).take n).Pairwise r ∧
    ((List.insertionSort r tabla).take n).length = min n tabla.length ∧
    (∀ p ∈ (List.insertionSort r tabla).take n, p ∈ tabla) ∧
    (∀ p ∈ (List.insertionSort r tabla).take n, ∀ q ∈ tabla,
      q ∉ (List.insertionSort r tabla).take n → r p q) := by
  refine ⟨?_, ?_, ?_, ?_⟩
  · exact List.Pairwise.sublist (List.take_sublist n _)
      (List.sorted_insertionSort r tabla)
  · rw [List.length_take, (List.perm_insertionSort r tabla).length_eq]
  · intro p hp
    exact (List.perm_insertionSort r tabla).mem_iff.mp (List.take_subset n _ hp)
  · intro p hp q hq hqnot
    have hqS : q ∈ List.insertionSort r tabla :=
      (List.perm_insertionSort r tabla).mem_iff.mpr hq
    rw [← List.take_append_drop n (List.insertionSort r tabla),
      List.mem_append] at hqS
    rcases hqS with hin | hdrop
    · exact absurd hin hqnot
    · exact sorted_take_drop n (List.sorted_insertionSort r tabla) p hp q hdrop

/-- Two rows with distinct products but the same revenue 10 — a tie in
the product ranking. -/
def vProdA : VRow :=
  ⟨some 10, some "A", some "Ana", some "Centro", some 1, some 10, some 10⟩

/-- Second product of the tie. -/
def vProdB : VRow :=
  ⟨some 10, some "B", some "Ana", some "Centro", some 1, some 10, some 10⟩

theorem top_productos_empate :
    top_productos [vProdA, vProdB] 5 = [("A", 10), ("B", 10)] := by
  rw [top_productos]
  norm_num [vProdA, vProdB, sumBy, montoOf, amountDesc, List.insertionSort,
    List.orderedInsert, List.dedup_cons_of_not_mem, List.dedup_nil]

/-- C4 counterexample: with two products of equal summed amount the
output of `top_productos` is NOT sorted strictly descending — the two
amounts are equal, so the order is only weakly descending. -/
theorem top_productos_not_strict :
    ¬ ((top_productos [vProdA, vProdB] 5).Pairwise
        (fun a b : String × ℚ => b.2 < a.2)) := by
  rw [top_productos_empate]
  intro h
  have h2 := (List.pairwise_cons.mp h).1 ("B", 10) (List.mem_singleton.mpr rfl)
  exact absurd h2 (by norm_num)

/-- C4 (amended): `top_productos` groups by `producto`, sums
`monto_total` per product, and returns a list sorted descending
(non-strictly: equal sums may be adjacent) by the summed amount, of
length `min n (number of distinct products)`; every entry carries a
product present in the dataset together with that product's summed
amount. -/
theorem top_productos_spec (df : List VRow) (n : Nat) :
    (top_productos df n).Pairwise amountDesc ∧
    (top_productos df n).length =
      min n ((df.filterMap (fun r => r.producto)).dedup).length ∧
    (∀ p ∈ top_productos df n,
      (∃ row ∈ df, row.producto = some p.1) ∧
      p.2 = sumBy montoOf (df.filter (fun r => decide (r.producto = some p.1)))) := by
  have h := take_insertionSort_spec amountDesc
    (((df.filterMap (fun r => r.producto)).dedup).map (fun k =>
      (k, sumBy montoOf (df.filter (fun r => decide (r.producto = some k)))))) n
  refine ⟨h.1, ?_, ?_⟩
  · rw [top_productos]
    rw [h.2.1, List.length_map]
  · intro p hp
    have hmem := h.2.2.1 p hp
    rcases List.mem_map.mp hmem with ⟨k, hk, hpk⟩
    have hk2 := List.mem_dedup.mp hk
    rcases List.mem_filterMap.mp hk2 with ⟨row, hrow, hrowk⟩
    refine ⟨⟨row, hrow, ?_⟩, ?_⟩
    · rw [hrowk, ← hpk]
    · rw [← hpk]

/-- C4 amended-claim witness: on a one-row dataset the ranking is the
one product with its total, and its amount is the group sum. -/
theorem top_productos_spec_witness :
    (top_productos [vEjemplo] 1).Pairwise amountDesc ∧
    (top_productos [vEjemplo] 1).length = 1 ∧
    ("Pan", (20 : ℚ)) ∈ top_productos [vEjemplo] 1 ∧
    ("Pan", (20 : ℚ)).2 = sumBy montoOf
      ([vEjemplo].filter (fun r => decide (r.producto = some ("Pan", (20 : ℚ)).1))) := by
  have heval : top_productos [vEjemplo] 1 = [("Pan", 20)] := by
    rw [top_productos]
    norm_num [vEjemplo, sumBy, montoOf, amountDesc, List.insertionSort,
      List.orderedInsert, List.dedup_cons_of_not_mem, List.dedup_nil]
  have hmem : ("Pan", (20 : ℚ)) ∈ top_productos [vEjemplo] 1 := by
    rw [heval]; exact List.mem_singleton.mpr rfl
  have h := top_productos_spec [vEjemplo] 1
  refine ⟨h.1, ?_, hmem, (h.2.2 _ hmem).2⟩
  rw [heval]; rfl

/-- C3: `top_vendedores` replaces null sellers by "Sin Vendedor", groups
by seller, sums `monto_total`, sorts ascending by the sum and keeps the
first `n`: the output is sorted ascending, has length `min n (number of
distinct fillna-sellers)`, each entry is a dataset seller with its group
sum, and every seller left out has a sum at least as large as every
entry kept — the `n` lowest-revenue sellers. -/
theorem top_vendedores_spec (df : List VRow) (n : Nat) :
    (top_vendedores df n).Pairwise amountAsc ∧
    (top_vendedores df n).length = min n ((df.map vendedorKey).dedup).length ∧
    (∀ p ∈ top_vendedores df n,
      (∃ row ∈ df, vendedorKey row = p.1) ∧
      p.2 = sumBy montoOf (df.filter (fun r => decide (vendedorKey r = p.1)))) ∧
    (∀ p ∈ top_vendedores df n, ∀ k ∈ (df.map vendedorKey).dedup,
      k ∉ (top_vendedores df n).map Prod.fst →
      p.2 ≤ sumBy montoOf (df.filter (fun r => decide (vendedorKey r = k)))) := by
  have h := take_insertionSort_spec amountAsc
    (((df.map vendedorKey).dedup).map (fun k =>
      (k, sumBy montoOf (df.filter (fun r => decide (vendedorKey r = k)))))) n
  refine ⟨h.1, ?_, ?_, ?_⟩
  · rw [top_vendedores]
    rw [h.2.1, List.length_map]
  · intro p hp
    have hmem := h.2.2.1 p hp
    rcases List.mem_map.mp hmem with ⟨k, hk, hpk⟩
    have hk2 := List.mem_dedup.mp hk
    rcases List.mem_map.mp hk2 with ⟨row, hrow, hrowk⟩
    refine ⟨⟨row, hrow, ?_⟩, ?_⟩
    · rw [hrowk, ← hpk]
    · rw [← hpk]
  · intro p hp k hk hknot
    have hq := h.2.2.2 p hp
      (k, sumBy montoOf (df.filter (fun r => decide (vendedorKey r = k))))
      (List.mem_map_of_mem _ hk) ?_
    · exact hq
    · intro hcontra
      exact hknot (List.mem_map_of_mem Prod.fst hcontra)

/-- C3 witness: one seller, one entry, carrying the seller's total; the
length and ordering facts evaluated on the same dataset. -/
theorem top_vendedores_spec_witness :
    (top_vendedores [vEjemplo] 1).Pairwise amountAsc ∧
    (top_vendedores [vEjemplo] 1).length = 1 ∧
    ("Ana", (20 : ℚ)) ∈ top_vendedores [vEjemplo] 1 ∧
    ("Ana", (20 : ℚ)).2 = sumBy montoOf
      ([vEjemplo].filter (fun r => decide (vendedorKey r = ("Ana", (20 : ℚ)).1))) := by
  have heval : top_vendedores [vEjemplo] 1 = [("Ana", 20)] := by
    rw [top_vendedores]
    norm_num [vEjemplo, sumBy, montoOf, amountAsc, vendedorKey, List.insertionSort,
      List.orderedInsert, List.dedup_cons_of_not_mem, List.dedup_nil]
  have hmem : ("Ana", (20 : ℚ)) ∈ top_vendedores [vEjemplo] 1 := by
    rw [heval]; exact List.mem_singleton.mpr rfl
  have h := top_vendedores_spec [vEjemplo] 1
  refine ⟨h.1, ?_, hmem, (h.2.2.1 _ hmem).2⟩
  rw [heval]; rfl

/-- A raw ingested row, before `tipificar_campos`: every column is
nullable text (a null cell stays `none`). -/
structure RawRow where
  fecha : Option String
  producto : Option String
  vendedor : Option String
  sucursal : Option String
  cantidad : Option String
  precio_unitario : Option String
deriving DecidableEq

/-- `tipificar_campos` on one row, parameterised by the library's two
per-value parsers (`pd.to_datetime` and `pd.to_numeric`, both with
`errors="coerce"`): a parser returning `none` is a parse failure, which
coerces the cell to null; a null cell stays null. -/
def tipificarRow (parseFecha : String → Option Int)
    (parseNum : String → Option ℚ) (r : RawRow) : Row :=
  { fecha := r.fecha.bind parseFecha,
    producto := r.producto, vendedor := r.vendedor, sucursal := r.sucursal,
    cantidad := r.cantidad.bind parseNum,
    precio_unitario := r.precio_unitario.bind parseNum }

/-- `tipificar_campos` over the dataset: the three column assignments
applied to every row. -/
def tipificar_campos (parseFecha : String → Option Int)
    (parseNum : String → Option ℚ) (df : List RawRow) : List Row :=
  df.map (tipificarRow parseFecha parseNum)

/-- C8: `tipificar_campos` is total: whatever the two per-value parsers
do, it returns a row for every input row (same count, each output row
the coercion of the input row at the same position), and every cell
whose value fails to parse — and every already-null cell — comes out
null instead of raising. -/
theorem tipificar_total (parseFecha : String → Option Int)
    (parseNum : String → Option ℚ) (df : List RawRow) :
    (tipificar_campos parseFecha parseNum df).length = df.length ∧
    (∀ i : Nat, (tipificar_campos parseFecha parseNum df)[i]? =
      (df[i]?).map (tipificarRow parseFecha parseNum)) ∧
    (∀ r : RawRow,
      (∀ s, r.fecha = some s → parseFecha s = none →
        (tipificarRow parseFecha parseNum r).fecha = none) ∧
      (∀ s, r.cantidad = some s → parseNum s = none →
        (tipificarRow parseFecha parseNum r).cantidad = none) ∧
      (∀ s, r.precio_unitario = some s → parseNum s = none →
        (tipificarRow parseFecha parseNum r).precio_unitario = none) ∧
      (r.fecha = none → (tipificarRow parseFecha parseNum r).fecha = none) ∧
      (r.cantidad = none → (tipificarRow parseFecha parseNum r).cantidad = none) ∧
      (r.precio_unitario = none →
        (tipificarRow parseFecha parseNum r).precio_unitario = none)) := by
  refine ⟨List.length_map df _, ?_, ?_⟩
  · intro i
    exact List.getElem?_map (tipificarRow parseFecha parseNum) df i
  · intro r
    refine ⟨?_, ?_, ?_, ?_, ?_, ?_⟩ <;>
      first
      | (intro s hs hfail
         simp [tipificarRow, hs, hfail])
      | (intro hs
         simp [tipificarRow, hs])

/-- C8 witness: with a parser that rejects everything, a row whose
`fecha` text is unparsable comes out with a null `fecha`, and the
output has one row per input row. -/
theorem tipificar_total_witness :
    let rechaza : String → Option Int := fun _ => none
    let acepta : String → Option ℚ := fun _ => some 1
    let raw : RawRow := ⟨some "no es fecha", some "Pan", some "Ana",
      some "Centro", some "2", some "10"⟩
    (tipificar_campos rechaza acepta [raw]).length = 1 ∧
      (tipificarRow rechaza acepta raw).fecha = none := by
  intro rechaza acepta raw
  exact ⟨(tipificar_total rechaza acepta [raw]).1,
    ((tipificar_total rechaza acepta [raw]).2.2 raw).1 "no es fecha" rfl rfl⟩
